import Mathlib

/- Verification development for the SongAudioProcessor repository.

   Shallow embedding of src/audio_processor.py (class AudioProcessor) and of the
   job-grouping helpers of src/main.py.  Waveforms (numpy arrays as returned by
   soundfile.read / produced by numpy) are embedded as `NpArray`: a 1-D (mono)
   array is a flat list of samples, a 2-D array of shape (n, c) is a list of n
   frames of c per-channel samples together with its channel count.  Sample
   values are real numbers; Python float times, rates and durations that only
   enter comparisons and index arithmetic are embedded as exact rationals.
   External library calls (pyloudnorm metering, librosa analysis, pydub and
   soundfile I/O) are embedded as explicit oracle parameters: the repository
   only ever passes their results around, so every claim about the repository
   holds for every value of these oracles unless stated otherwise. -/

-- ===================== data model =====================

inductive NpArray (α : Type) where
  | mono (samples : List α)
  | multi (channels : ℕ) (frames : List (List α))
deriving Repr

/-- Length of the first axis of a numpy array: len(audio_data). -/
def npLen {α : Type} : NpArray α → ℕ
  | .mono xs => xs.length
  | .multi _ rows => rows.length

/-- Channel count of a waveform: shape[1] for a 2-D array, 1 for a mono array. -/
def npChannels {α : Type} : NpArray α → ℕ
  | .mono _ => 1
  | .multi c _ => c

/-- Frame at index i: the list of per-channel samples at that sample position
    (a mono sample s is the one-channel frame [s]). -/
def frameAt {α : Type} : NpArray α → ℕ → Option (List α)
  | .mono xs, i => (xs[i]?).map (fun s => [s])
  | .multi _ rows, i => rows[i]?

/-- Python int() applied to an exact rational: truncation toward zero. -/
def pyIntQ (x : ℚ) : ℤ := if 0 ≤ x then ⌊x⌋ else ⌈x⌉

-- ===================== AudioProcessor.__init__ (lines 9-18) =====================

/-- The configuration stored by AudioProcessor.__init__: it assigns the three
    parameters to fields and does nothing else. -/
structure AudioProcessor where
  target_lufs : ℚ
  silence_duration : ℚ
  tolerance : ℚ
deriving DecidableEq, Repr

/-- A raised Python exception (the embedding does not distinguish exception
    classes: the repository defines no exception class of its own). -/
inductive PyErr where
  | exc
deriving DecidableEq, Repr

/-- AudioProcessor.__init__ (src/audio_processor.py lines 9-18).  The Except
    codomain records whether construction can signal an error: the constructor
    body is three field assignments, so it always returns ok and never raises. -/
def AudioProcessor.init (target_lufs silence_duration tolerance : ℚ) :
    Except PyErr AudioProcessor :=
  .ok ⟨target_lufs, silence_duration, tolerance⟩

-- ===================== add_silence (lines 111-122) =====================

/-- AudioProcessor.add_silence (src/audio_processor.py lines 111-122).
    silence_samples = int(self.silence_duration * sample_rate); a 2-D input of
    shape (n, c) gets np.zeros((silence_samples, c)) appended along axis 0, a
    1-D input gets np.zeros(silence_samples) appended.  np.zeros raises on a
    negative count, embedded as the none result. -/
def add_silence {α : Type} [Zero α] (silence_duration : ℚ) (audio_data : NpArray α)
    (sample_rate : ℚ) : Option (NpArray α) :=
  let silence_samples := pyIntQ (silence_duration * sample_rate)
  if silence_samples < 0 then none
  else some (match audio_data with
    | .mono xs => .mono (xs ++ List.replicate silence_samples.toNat 0)
    | .multi c rows => .multi c (rows ++ List.replicate silence_samples.toNat (List.replicate c 0)))

-- ===================== adjust_loudness (lines 129-157) =====================

/-- Elementwise scalar multiplication of a numpy array: audio * g. -/
noncomputable def scaleN (g : ℝ) : NpArray ℝ → NpArray ℝ
  | .mono xs => .mono (xs.map (fun s => s * g))
  | .multi c rows => .multi c (rows.map (fun r => r.map (fun s => s * g)))

/-- Loop body of AudioProcessor.adjust_loudness (lines 137-155).  `meas` is the
    pyloudnorm meter.integrated_loudness oracle, `i` the Python loop index and
    `fuel` the remaining iterations of range(max_iterations).  The print calls
    and the re-measurement used only for the debug print are effect-free and
    omitted. -/
noncomputable def adjustLoop (meas : NpArray ℝ → ℝ) (target_lufs tolerance : ℝ)
    (adjusted_audio : NpArray ℝ) (i fuel : ℕ) : NpArray ℝ :=
  match fuel with
  | 0 => adjusted_audio
  | fuel + 1 =>
    let current := meas adjusted_audio
    let db_change := target_lufs - current
    if |db_change| < tolerance then adjusted_audio
    else
      let damping : ℝ := if i = 0 then 1.0 else 0.8
      adjustLoop meas target_lufs tolerance
        (scaleN ((10 : ℝ) ^ ((db_change * damping) / 20)) adjusted_audio) (i + 1) fuel

/-- AudioProcessor.adjust_loudness (src/audio_processor.py lines 129-157).
    The current_lufs parameter is received but never read by the loop, exactly
    as in the source; the loop re-measures at the top of every iteration. -/
noncomputable def adjust_loudness (meas : NpArray ℝ → ℝ) (target_lufs tolerance : ℝ)
    (audio_data : NpArray ℝ) (current_lufs : ℝ) (max_iterations : ℕ) : NpArray ℝ :=
  adjustLoop meas target_lufs tolerance audio_data 0 max_iterations

-- ===================== the spec state machine of section 4.5 =====================

/-- State of the Loudness Normalizer state machine of spec section 4.5:
    (waveform, iteration_count) plus the terminal converged flag. -/
structure NormState where
  wave : NpArray ℝ
  iteration_count : ℕ
  converged : Bool

/-- Transition of the Normalizer state machine, written from the words of the
    spec (sections 4.5 and 8): measure L, delta = target - L, terminate if
    |delta| < tolerance, otherwise apply the gain 10^((delta*damping)/20) to
    every sample with damping 1.0 on iteration 0 and 0.8 afterwards.  A
    converged state is terminal. -/
noncomputable def normTransition (meas : NpArray ℝ → ℝ) (target tolerance : ℝ)
    (s : NormState) : NormState :=
  if s.converged then s
  else
    let delta := target - meas s.wave
    if |delta| < tolerance then ⟨s.wave, s.iteration_count, true⟩
    else
      let damping : ℝ := if s.iteration_count = 0 then 1.0 else 0.8
      ⟨scaleN ((10 : ℝ) ^ ((delta * damping) / 20)) s.wave, s.iteration_count + 1, false⟩

/-- Absolute deviation of the loudness from the target after k transitions of
    the spec state machine started on waveform x. -/
noncomputable def deltaAfter (meas : NpArray ℝ → ℝ) (target tolerance : ℝ)
    (x : NpArray ℝ) (k : ℕ) : ℝ :=
  |target - meas (((normTransition meas target tolerance)^[k] ⟨x, 0, false⟩).wave)|

-- ===================== the spec-modelled loudness meter =====================

/-- Mean square sample power of a waveform (channel-summed for 2-D input). -/
noncomputable def npMeanSq : NpArray ℝ → ℝ
  | .mono xs => (xs.map (fun s => s ^ 2)).sum / xs.length
  | .multi c rows => ((rows.map (fun r => (r.map (fun s => s ^ 2)).sum)).sum) / (rows.length * c)

/-- Modelled from the spec: the Loudness Meter of section 4.4 (implemented by
    the external pyloudnorm library, not present in src/) computes a gated,
    K-weighted integrated loudness -0.691 + 10*log10 of a mean square power.
    The model keeps exactly that power-log form and drops the K-weighting
    filter and the gating, whose only role in the claims below is the response
    of the measurement to a pure gain. -/
noncomputable def specMeter (a : NpArray ℝ) : ℝ :=
  -0.691 + 10 * Real.logb 10 (npMeanSq a)

-- ===================== normalizer lemmas =====================

theorem scaleN_one (w : NpArray ℝ) : scaleN 1 w = w := by
  cases w with
  | mono xs => simp [scaleN]
  | multi c rows => simp [scaleN]

theorem normTransition_converged (meas : NpArray ℝ → ℝ) (target tolerance : ℝ)
    (s : NormState) (h : s.converged = true) : normTransition meas target tolerance s = s := by
  simp [normTransition, h]

theorem iterate_normTransition_converged (meas : NpArray ℝ → ℝ) (target tolerance : ℝ)
    (s : NormState) (h : s.converged = true) (n : ℕ) :
    (normTransition meas target tolerance)^[n] s = s :=
  Function.iterate_fixed (normTransition_converged meas target tolerance s h) n

theorem adjustLoop_eq_iterate (meas : NpArray ℝ → ℝ) (target tolerance : ℝ) :
    ∀ (fuel : ℕ) (x : NpArray ℝ) (i : ℕ),
      adjustLoop meas target tolerance x i fuel
        = ((normTransition meas target tolerance)^[fuel] ⟨x, i, false⟩).wave := by
  intro fuel
  induction fuel with
  | zero => intro x i; rfl
  | succ n ih =>
    intro x i
    rw [Function.iterate_succ_apply]
    by_cases h : |target - meas x| < tolerance
    · have hstep : normTransition meas target tolerance ⟨x, i, false⟩ = ⟨x, i, true⟩ := by
        simp [normTransition, h]
      rw [hstep, iterate_normTransition_converged meas target tolerance _ rfl n]
      simp [adjustLoop, h]
    · have hstep : normTransition meas target tolerance ⟨x, i, false⟩
          = ⟨scaleN ((10 : ℝ) ^ ((target - meas x) * (if i = 0 then (1.0 : ℝ) else 0.8) / 20)) x,
             i + 1, false⟩ := by
        simp [normTransition, h]
      rw [hstep, ← ih]
      simp [adjustLoop, h]

-- ===================== claims C1, C3 =====================

/-- Claim C1: for every measurement oracle, waveform and sample-rate-determined
    meter, adjust_loudness runs exactly the Normalizer transition of spec 4.5
    for at most max_iterations steps: measure L, delta = target - L, stop once
    |delta| < tolerance, otherwise scale every sample by 10^((delta*damping)/20)
    with damping 1.0 on iteration 0 and 0.8 afterwards; hitting the iteration
    limit is not an error, the current best-effort waveform is returned.  All
    of this is packaged as equality with max_iterations steps of the spec state
    machine, whose converged states are terminal. -/
theorem claim_C1_bounded_damped_transitions (meas : NpArray ℝ → ℝ)
    (target_lufs tolerance current_lufs : ℝ) (audio_data : NpArray ℝ) (max_iterations : ℕ) :
    adjust_loudness meas target_lufs tolerance audio_data current_lufs max_iterations
      = ((normTransition meas target_lufs tolerance)^[max_iterations]
          ⟨audio_data, 0, false⟩).wave :=
  adjustLoop_eq_iterate meas target_lufs tolerance max_iterations audio_data 0

/-- Claim C3: a waveform already within tolerance of the target is returned
    unchanged, sample for sample, and the spec state machine records zero
    gain-scaling transitions. -/
theorem claim_C3_idempotent_near_target (meas : NpArray ℝ → ℝ)
    (target tolerance current_lufs : ℝ) (x : NpArray ℝ) (n : ℕ)
    (h : |meas x - target| < tolerance) :
    adjust_loudness meas target tolerance x current_lufs n = x ∧
    ((normTransition meas target tolerance)^[n] ⟨x, 0, false⟩).iteration_count = 0 := by
  have h2 : |target - meas x| < tolerance := by rwa [abs_sub_comm]
  cases n with
  | zero => exact ⟨rfl, rfl⟩
  | succ m =>
    have hstep : normTransition meas target tolerance ⟨x, 0, false⟩ = ⟨x, 0, true⟩ := by
      simp [normTransition, h2]
    constructor
    · show adjustLoop meas target tolerance x 0 (m + 1) = x
      simp [adjustLoop, h2]
    · rw [Function.iterate_succ_apply, hstep,
        iterate_normTransition_converged meas target tolerance _ rfl m]

/-- Claim C3 witness at a concrete meter, waveform and configuration. -/
theorem claim_C3_witness :
    |(-14 : ℝ) - (-14)| < 0.1 ∧
    adjust_loudness (fun _ => (-14 : ℝ)) (-14) 0.1 (NpArray.mono [1, -(1/2)]) (-14) 5
      = NpArray.mono [1, -(1/2)] ∧
    ((normTransition (fun _ => (-14 : ℝ)) (-14) 0.1)^[5]
        ⟨NpArray.mono [1, -(1/2)], 0, false⟩).iteration_count = 0 := by
  refine ⟨by norm_num, ?_⟩
  have h := claim_C3_idempotent_near_target (fun _ => (-14 : ℝ)) (-14) 0.1 (-14)
    (NpArray.mono [1, -(1/2)]) 5 (by norm_num)
  exact h

-- ===================== convergence lemmas for claim C2 =====================

theorem normTransition_at_target_no_tol (meas : NpArray ℝ → ℝ) (target tolerance : ℝ)
    (w : NpArray ℝ) (j : ℕ) (hw : meas w = target) (htol : tolerance ≤ 0) :
    normTransition meas target tolerance ⟨w, j, false⟩ = ⟨w, j + 1, false⟩ := by
  have hnl : ¬ |target - meas w| < tolerance := by
    rw [hw, sub_self, abs_zero]; exact not_lt.mpr htol
  have e : (10 : ℝ) ^ ((target - meas w) * (if j = 0 then (1.0 : ℝ) else 0.8) / 20) = 1 := by
    rw [hw, sub_self, zero_mul, zero_div, Real.rpow_zero]
  simp only [normTransition, Bool.false_eq_true, if_false, hnl, e, scaleN_one]

theorem iterate_at_target_no_tol (meas : NpArray ℝ → ℝ) (target tolerance : ℝ)
    (w : NpArray ℝ) (hw : meas w = target) (htol : tolerance ≤ 0) :
    ∀ (m j : ℕ), (normTransition meas target tolerance)^[m] ⟨w, j, false⟩ = ⟨w, j + m, false⟩ := by
  intro m
  induction m with
  | zero => intro j; simp
  | succ n ih =>
    intro j
    rw [Function.iterate_succ_apply, normTransition_at_target_no_tol meas target tolerance w j hw htol,
      ih (j + 1)]
    simp only [NormState.mk.injEq, true_and, and_true]
    omega

/-- Claim C2: under the spec-modelled response of the meter to a pure gain
    (loudness shifts by exactly 20*log10 of the gain, the behaviour of the
    section 4.4 meter whenever gating is unaffected), for every waveform whose
    initial loudness is strictly inside [target - 40, target + 40], the
    |delta| sequence of the Normalizer state machine is monotonically
    non-increasing from the first iteration on, and after the default 5
    transitions the machine has either converged within tolerance or exhausted
    its 5 iterations. -/
theorem claim_C2_damped_monotone_convergence (meas : NpArray ℝ → ℝ) (target tolerance : ℝ)
    (x : NpArray ℝ)
    (hlin : ∀ g : ℝ, 0 < g → meas (scaleN g x) = meas x + 20 * Real.logb 10 g)
    (hband : target - 40 < meas x ∧ meas x < target + 40) :
    (∀ k, 1 ≤ k →
        deltaAfter meas target tolerance x (k + 1) ≤ deltaAfter meas target tolerance x k) ∧
    (((normTransition meas target tolerance)^[5] ⟨x, 0, false⟩).converged = true ∨
      ((normTransition meas target tolerance)^[5] ⟨x, 0, false⟩).iteration_count = 5) := by
  by_cases h0 : |target - meas x| < tolerance
  · have hs1 : normTransition meas target tolerance ⟨x, 0, false⟩ = ⟨x, 0, true⟩ := by
      simp [normTransition, h0]
    have hk : ∀ k, 1 ≤ k →
        (normTransition meas target tolerance)^[k] ⟨x, 0, false⟩ = ⟨x, 0, true⟩ := by
      intro k hk1
      cases k with
      | zero => omega
      | succ m =>
        rw [Function.iterate_succ_apply, hs1,
          iterate_normTransition_converged meas target tolerance _ rfl m]
    refine ⟨?_, Or.inl ?_⟩
    · intro k hk1
      unfold deltaAfter
      rw [hk (k + 1) (by omega), hk k hk1]
    · rw [hk 5 (by omega)]
  · have hgpos : (0 : ℝ) < (10 : ℝ) ^ ((target - meas x) * (1.0 : ℝ) / 20) :=
      Real.rpow_pos_of_pos (by norm_num) _
    have hs1 : normTransition meas target tolerance ⟨x, 0, false⟩
        = ⟨scaleN ((10 : ℝ) ^ ((target - meas x) * (1.0 : ℝ) / 20)) x, 1, false⟩ := by
      simp [normTransition, h0]
    have hm1 : meas (scaleN ((10 : ℝ) ^ ((target - meas x) * (1.0 : ℝ) / 20)) x) = target := by
      have hlogb : Real.logb 10 ((10 : ℝ) ^ ((target - meas x) * (1.0 : ℝ) / 20))
          = (target - meas x) * (1.0 : ℝ) / 20 :=
        Real.logb_rpow (by norm_num) (by norm_num)
      rw [hlin _ hgpos, hlogb]
      have e10 : (1.0 : ℝ) = 1 := by norm_num
      rw [e10]
      ring
    by_cases htol : 0 < tolerance
    · have hs2 : normTransition meas target tolerance
          ⟨scaleN ((10 : ℝ) ^ ((target - meas x) * (1.0 : ℝ) / 20)) x, 1, false⟩
          = ⟨scaleN ((10 : ℝ) ^ ((target - meas x) * (1.0 : ℝ) / 20)) x, 1, true⟩ := by
        simp [normTransition, hm1, htol]
      have hk2 : ∀ m, (normTransition meas target tolerance)^[m + 2] ⟨x, 0, false⟩
          = ⟨scaleN ((10 : ℝ) ^ ((target - meas x) * (1.0 : ℝ) / 20)) x, 1, true⟩ := by
        intro m
        rw [Function.iterate_succ_apply, hs1, Function.iterate_succ_apply, hs2,
          iterate_normTransition_converged meas target tolerance _ rfl m]
      have hwave : ∀ k, 1 ≤ k →
          ((normTransition meas target tolerance)^[k] ⟨x, 0, false⟩).wave
            = scaleN ((10 : ℝ) ^ ((target - meas x) * (1.0 : ℝ) / 20)) x := by
        intro k hk1
        cases k with
        | zero => omega
        | succ m =>
          cases m with
          | zero => rw [Function.iterate_one, hs1]
          | succ m2 => rw [hk2 m2]
      refine ⟨?_, Or.inl ?_⟩
      · intro k hk1
        unfold deltaAfter
        rw [hwave (k + 1) (by omega), hwave k hk1]
      · rw [show (5 : ℕ) = 3 + 2 from rfl, hk2 3]
    · push_neg at htol
      have hk1 : ∀ m, (normTransition meas target tolerance)^[m + 1] ⟨x, 0, false⟩
          = ⟨scaleN ((10 : ℝ) ^ ((target - meas x) * (1.0 : ℝ) / 20)) x, 1 + m, false⟩ := by
        intro m
        rw [Function.iterate_succ_apply, hs1,
          iterate_at_target_no_tol meas target tolerance _ hm1 htol m 1]
      refine ⟨?_, Or.inr ?_⟩
      · intro k hkge
        obtain ⟨m, rfl⟩ : ∃ m, k = m + 1 := ⟨k - 1, by omega⟩
        unfold deltaAfter
        rw [show m + 1 + 1 = (m + 1) + 1 from rfl, hk1 (m + 1), hk1 m]
      · rw [show (5 : ℕ) = 4 + 1 from rfl, hk1 4]

theorem specMeter_gain_mono_one (g : ℝ) (hg : 0 < g) :
    specMeter (scaleN g (NpArray.mono [1]))
      = specMeter (NpArray.mono [1]) + 20 * Real.logb 10 g := by
  have h1 : npMeanSq (scaleN g (NpArray.mono [1])) = g ^ 2 := by
    simp [scaleN, npMeanSq]
  have h2 : npMeanSq (NpArray.mono [1]) = 1 := by
    simp [npMeanSq]
  simp only [specMeter, h1, h2, Real.logb_one, mul_zero, add_zero]
  rw [Real.logb_pow]
  push_cast
  ring

theorem specMeter_of_unit_mono : specMeter (NpArray.mono [1]) = -0.691 := by
  simp [specMeter, npMeanSq, Real.logb_one]

/-- Claim C2 witness: the concrete spec-modelled meter, a unit mono waveform
    and the default target -14 and tolerance 0.1 discharge every hypothesis of
    the convergence theorem. -/
theorem claim_C2_witness :
    ((-14 : ℝ) - 40 < specMeter (NpArray.mono [1]) ∧
      specMeter (NpArray.mono [1]) < (-14 : ℝ) + 40) ∧
    deltaAfter specMeter (-14) 0.1 (NpArray.mono [1]) 2
      ≤ deltaAfter specMeter (-14) 0.1 (NpArray.mono [1]) 1 ∧
    (((normTransition specMeter (-14) 0.1)^[5] ⟨NpArray.mono [1], 0, false⟩).converged = true ∨
      ((normTransition specMeter (-14) 0.1)^[5] ⟨NpArray.mono [1], 0, false⟩).iteration_count = 5) := by
  have hband : (-14 : ℝ) - 40 < specMeter (NpArray.mono [1]) ∧
      specMeter (NpArray.mono [1]) < (-14 : ℝ) + 40 := by
    rw [specMeter_of_unit_mono]
    norm_num
  have h := claim_C2_damped_monotone_convergence specMeter (-14) 0.1 (NpArray.mono [1])
    (fun g hg => specMeter_gain_mono_one g hg) hband
  exact ⟨hband, h.1 1 le_rfl, h.2⟩

-- ===================== adjust_loudness over an explicit numpy buffer heap =====================

/-- Loop of adjust_loudness with the numpy buffers made explicit: the heap is
    the list of allocated float buffers and adjRef the index bound to the name
    adjusted_audio.  numpy scalar multiplication (line 151) evaluates
    adjusted_audio * gain into a freshly allocated buffer appended to the heap
    and the name is rebound to it; no existing buffer is ever written. -/
noncomputable def adjustLoopHeap (meas : NpArray ℝ → ℝ) (target_lufs tolerance : ℝ)
    (heap : List (NpArray ℝ)) (adjRef : ℕ) (i fuel : ℕ) : List (NpArray ℝ) × ℕ :=
  match fuel with
  | 0 => (heap, adjRef)
  | fuel + 1 =>
    let current := meas (heap.getD adjRef (.mono []))
    let db_change := target_lufs - current
    if |db_change| < tolerance then (heap, adjRef)
    else
      let damping : ℝ := if i = 0 then 1.0 else 0.8
      adjustLoopHeap meas target_lufs tolerance
        (heap ++ [scaleN ((10 : ℝ) ^ ((db_change * damping) / 20)) (heap.getD adjRef (.mono []))])
        heap.length (i + 1) fuel

/-- adjust_loudness with the argument buffer living on the explicit heap:
    audioRef is the reference passed by the caller as audio_data, and line 134
    binds adjusted_audio to that same buffer without copying. -/
noncomputable def adjust_loudness_heap (meas : NpArray ℝ → ℝ) (target_lufs tolerance : ℝ)
    (heap : List (NpArray ℝ)) (audioRef : ℕ) (max_iterations : ℕ) : List (NpArray ℝ) × ℕ :=
  adjustLoopHeap meas target_lufs tolerance heap audioRef 0 max_iterations

theorem adjustLoopHeap_frame (meas : NpArray ℝ → ℝ) (target_lufs tolerance : ℝ) :
    ∀ (fuel : ℕ) (heap : List (NpArray ℝ)) (adjRef i : ℕ), adjRef < heap.length →
      (∀ j, j < heap.length →
        (adjustLoopHeap meas target_lufs tolerance heap adjRef i fuel).1.getD j (.mono [])
          = heap.getD j (.mono [])) ∧
      (adjustLoopHeap meas target_lufs tolerance heap adjRef i fuel).1.getD
          (adjustLoopHeap meas target_lufs tolerance heap adjRef i fuel).2 (.mono [])
        = adjustLoop meas target_lufs tolerance (heap.getD adjRef (.mono [])) i fuel := by
  intro fuel
  induction fuel with
  | zero => intro heap adjRef i hr; exact ⟨fun j hj => rfl, rfl⟩
  | succ n ih =>
    intro heap adjRef i hr
    by_cases h : |target_lufs - meas (heap.getD adjRef (.mono []))| < tolerance
    · constructor
      · intro j hj
        simp only [adjustLoopHeap, h, if_true]
      · simp only [adjustLoopHeap, adjustLoop, h, if_true]
    · have hlen : adjRef < (heap ++ [scaleN ((10 : ℝ) ^
          ((target_lufs - meas (heap.getD adjRef (.mono []))) *
            (if i = 0 then (1.0 : ℝ) else 0.8) / 20)) (heap.getD adjRef (.mono []))]).length := by
        simp only [List.length_append, List.length_cons, List.length_nil]
        omega
      have hfreshlen : heap.length < (heap ++ [scaleN ((10 : ℝ) ^
          ((target_lufs - meas (heap.getD adjRef (.mono []))) *
            (if i = 0 then (1.0 : ℝ) else 0.8) / 20)) (heap.getD adjRef (.mono []))]).length := by
        simp only [List.length_append, List.length_cons, List.length_nil]
        omega
      have ihh := ih (heap ++ [scaleN ((10 : ℝ) ^
          ((target_lufs - meas (heap.getD adjRef (.mono []))) *
            (if i = 0 then (1.0 : ℝ) else 0.8) / 20)) (heap.getD adjRef (.mono []))])
        heap.length (i + 1) hfreshlen
      have hfresh : (heap ++ [scaleN ((10 : ℝ) ^
          ((target_lufs - meas (heap.getD adjRef (.mono []))) *
            (if i = 0 then (1.0 : ℝ) else 0.8) / 20)) (heap.getD adjRef (.mono []))]).getD
          heap.length (.mono [])
          = scaleN ((10 : ℝ) ^
            ((target_lufs - meas (heap.getD adjRef (.mono []))) *
              (if i = 0 then (1.0 : ℝ) else 0.8) / 20)) (heap.getD adjRef (.mono [])) := by
        rw [List.getD_append_right _ _ _ _ (le_refl heap.length)]
        simp
      constructor
      · intro j hj
        have hj2 : j < (heap ++ [scaleN ((10 : ℝ) ^
            ((target_lufs - meas (heap.getD adjRef (.mono []))) *
              (if i = 0 then (1.0 : ℝ) else 0.8) / 20)) (heap.getD adjRef (.mono []))]).length := by
          simp only [List.length_append, List.length_cons, List.length_nil]
          omega
        have := ihh.1 j hj2
        simp only [adjustLoopHeap, h, if_false]
        rw [this, List.getD_append _ _ _ _ hj]
      · have := ihh.2
        simp only [adjustLoopHeap, adjustLoop, h, if_false]
        rw [this, hfresh]

/-- Claim C10: adjust_loudness never mutates its input.  Running the loop on
    the explicit buffer heap that initially holds exactly the callers array at
    reference 0 leaves that buffer bitwise unchanged (every gain application
    allocates a fresh buffer), whether or not any adjustment happened, and the
    buffer finally referenced holds exactly the value computed by the pure
    embedding of adjust_loudness. -/
theorem claim_C10_no_input_mutation (meas : NpArray ℝ → ℝ)
    (target_lufs tolerance current_lufs : ℝ) (x : NpArray ℝ) (max_iterations : ℕ) :
    (adjust_loudness_heap meas target_lufs tolerance [x] 0 max_iterations).1.getD 0 (.mono []) = x ∧
    (adjust_loudness_heap meas target_lufs tolerance [x] 0 max_iterations).1.getD
        (adjust_loudness_heap meas target_lufs tolerance [x] 0 max_iterations).2 (.mono [])
      = adjust_loudness meas target_lufs tolerance x current_lufs max_iterations := by
  have h := adjustLoopHeap_frame meas target_lufs tolerance max_iterations [x] 0 0 (by simp)
  exact ⟨h.1 0 (by simp), h.2⟩

-- ===================== claim C5: the silence padder =====================

/-- Claim C5: for a positive sample rate and the configured non-negative
    silence duration whose product is the whole number s of samples, the
    padded waveform keeps the channel count of its input, its length is the
    input length plus s, the original samples are untouched and each of the s
    appended frames is all-zero on every channel. -/
theorem claim_C5_silence_padder {α : Type} [Zero α] (silence_duration sample_rate : ℚ)
    (a : NpArray α) (s : ℕ) (hrate : 0 < sample_rate) (hdur : 0 ≤ silence_duration)
    (hprod : silence_duration * sample_rate = (s : ℚ)) :
    Option.map npChannels (add_silence silence_duration a sample_rate) = some (npChannels a) ∧
    Option.map npLen (add_silence silence_duration a sample_rate) = some (npLen a + s) ∧
    (∀ i, i < npLen a →
      (add_silence silence_duration a sample_rate).bind (fun b => frameAt b i) = frameAt a i) ∧
    (∀ i, npLen a ≤ i → i < npLen a + s →
      (add_silence silence_duration a sample_rate).bind (fun b => frameAt b i)
        = some (List.replicate (npChannels a) 0)) := by
  have hs : pyIntQ (silence_duration * sample_rate) = (s : ℤ) := by
    rw [hprod]
    simp [pyIntQ, Int.floor_natCast]
  have hval : add_silence silence_duration a sample_rate
      = some (match a with
        | .mono xs => .mono (xs ++ List.replicate s 0)
        | .multi c rows => .multi c (rows ++ List.replicate s (List.replicate c 0))) := by
    unfold add_silence
    rw [hs]
    simp
  cases a with
  | mono xs =>
    rw [hval]
    refine ⟨by simp [npChannels], by simp [npLen], ?_, ?_⟩
    · intro i hi
      simp only [Option.some_bind, frameAt]
      rw [List.getElem?_append, if_pos (by simpa [npLen] using hi)]
    · intro i hi1 hi2
      simp only [Option.some_bind, frameAt, npChannels, List.replicate]
      rw [List.getElem?_append, if_neg (by simp [npLen] at hi1 ⊢; omega)]
      have hlt : i - xs.length < s := by simp [npLen] at hi1 hi2; omega
      simp [List.getElem?_replicate, hlt]
  | multi c rows =>
    rw [hval]
    refine ⟨by simp [npChannels], by simp [npLen], ?_, ?_⟩
    · intro i hi
      simp only [Option.some_bind, frameAt]
      rw [List.getElem?_append, if_pos (by simpa [npLen] using hi)]
    · intro i hi1 hi2
      simp only [Option.some_bind, frameAt, npChannels]
      rw [List.getElem?_append, if_neg (by simp [npLen] at hi1 ⊢; omega)]
      have hlt : i - rows.length < s := by simp [npLen] at hi1 hi2; omega
      simp [List.getElem?_replicate, hlt]

/-- Claim C5 witness: a two-sample mono waveform, the default two seconds of
    silence and sample rate 44100 (so s = 88200 appended zero samples). -/
theorem claim_C5_witness :
    (0 : ℚ) < 44100 ∧ (0 : ℚ) ≤ 2 ∧ (2 : ℚ) * 44100 = (88200 : ℚ) ∧
    Option.map npLen (add_silence 2 (NpArray.mono ([1, 2] : List ℚ)) 44100) = some 88202 ∧
    Option.map npChannels (add_silence 2 (NpArray.mono ([1, 2] : List ℚ)) 44100) = some 1 ∧
    (add_silence 2 (NpArray.mono ([1, 2] : List ℚ)) 44100).bind (fun b => frameAt b 0)
      = some [1] ∧
    (add_silence 2 (NpArray.mono ([1, 2] : List ℚ)) 44100).bind (fun b => frameAt b 88201)
      = some [0] := by
  have h := claim_C5_silence_padder 2 44100 (NpArray.mono ([1, 2] : List ℚ)) 88200
    (by norm_num) (by norm_num) (by norm_num)
  refine ⟨by norm_num, by norm_num, by norm_num, ?_, ?_, ?_, ?_⟩
  · have h2 := h.2.1
    simpa [npLen] using h2
  · have h2 := h.1
    simpa [npChannels] using h2
  · have h2 := h.2.2.1 0 (by simp [npLen])
    simpa [frameAt] using h2
  · have h2 := h.2.2.2 88201 (by simp [npLen]) (by simp [npLen])
    simpa [npChannels] using h2

-- ===================== find_splice_points (lines 24-88) =====================

/-- A splice candidate record as appended at lines 80-84:
    {time1, time2, similarity}, times in seconds. -/
structure SpliceCand where
  time1 : ℚ
  time2 : ℚ
  similarity : ℚ
deriving DecidableEq, Repr

/-- The librosa view of the two audio files of find_splice_points: buffer
    lengths len(audio1), len(audio2), sample rates sr1, sr2 and the beat
    timestamp lists produced by beat_track/frames_to_time (lines 33-42) are
    inputs from the external librosa library; similarity is the oracle for the
    rms and stft comparison of lines 64-78, a pure function of the four slice
    indices seg1_start, seg1_end, seg2_start, seg2_end. -/
structure SpliceEnv where
  len1 : ℕ
  len2 : ℕ
  sr1 : ℚ
  sr2 : ℚ
  beat_times1 : List ℚ
  beat_times2 : List ℚ
  similarity : ℤ → ℤ → ℤ → ℤ → ℚ

/-- Stable descending insertion: c goes before the first existing candidate of
    strictly smaller similarity. -/
def insertDesc (c : SpliceCand) : List SpliceCand → List SpliceCand
  | [] => [c]
  | d :: rest => if d.similarity < c.similarity then c :: d :: rest else d :: insertDesc c rest

/-- Stable sort by descending similarity, the effect of
    candidates.sort(reverse=True) keyed on similarity at line 87. -/
def sortDesc : List SpliceCand → List SpliceCand
  | [] => []
  | c :: rest => insertDesc c (sortDesc rest)

/-- AudioProcessor.find_splice_points (src/audio_processor.py lines 24-88).
    window = 10 seconds; end_beats1 and start_beats2 restrict the beat lists
    by the boolean masks of lines 49-50; every beat combination yields the
    four int() slice indices of lines 56-59 and is skipped when either end
    index reaches past its buffer (line 61); surviving combinations carry the
    similarity score, and the top num_candidates by descending similarity are
    returned. -/
def find_splice_points (env : SpliceEnv) (num_candidates : ℕ) : List SpliceCand :=
  let window : ℚ := 10
  let end_beats1 := env.beat_times1.filter (fun t => decide ((env.len1 : ℚ) / env.sr1 - window < t))
  let start_beats2 := env.beat_times2.filter (fun t => decide (t < window))
  let candidates := end_beats1.flatMap (fun t1 =>
    start_beats2.filterMap (fun t2 =>
      let seg1_start := pyIntQ ((t1 - 1/10) * env.sr1)
      let seg1_end := pyIntQ ((t1 + 1/10) * env.sr1)
      let seg2_start := pyIntQ ((t2 - 1/10) * env.sr2)
      let seg2_end := pyIntQ ((t2 + 1/10) * env.sr2)
      if (env.len1 : ℤ) ≤ seg1_end ∨ (env.len2 : ℤ) ≤ seg2_end then none
      else some ⟨t1, t2, env.similarity seg1_start seg1_end seg2_start seg2_end⟩))
  (sortDesc candidates).take num_candidates

theorem mem_insertDesc (a c : SpliceCand) (l : List SpliceCand) :
    a ∈ insertDesc c l ↔ a = c ∨ a ∈ l := by
  induction l with
  | nil => simp [insertDesc]
  | cons d rest ih =>
    by_cases h : d.similarity < c.similarity
    · simp [insertDesc, h]
    · simp [insertDesc, h, ih]
      tauto

theorem mem_sortDesc (a : SpliceCand) (l : List SpliceCand) :
    a ∈ sortDesc l ↔ a ∈ l := by
  induction l with
  | nil => simp [sortDesc]
  | cons c rest ih => simp [sortDesc, mem_insertDesc, ih]

/-- Concrete librosa oracle: two 0.15-second buffers (15 samples at rate 100,
    shorter than the 0.2-second comparison window) with one beat at 0.0 s in
    each and a constant similarity oracle. -/
def spliceEnvCE : SpliceEnv := ⟨15, 15, 100, 100, [0], [0], fun _ _ _ _ => 1⟩

theorem spliceEnvCE_eval : find_splice_points spliceEnvCE 5 = [⟨0, 0, 1⟩] := by
  have e1 : pyIntQ (((0 : ℚ) + 1 / 10) * 100) = 10 := by
    norm_num [pyIntQ]
  norm_num [find_splice_points, spliceEnvCE, sortDesc, insertDesc,
    List.filter_cons, List.filter_nil, List.flatMap_cons, List.flatMap_nil,
    List.filterMap_cons, List.filterMap_nil, e1]

/-- Claim C4 (amended): every candidate returned by find_splice_points has the
    END index of each comparison window strictly inside its source buffer (the
    code skips a combination when seg1_end or seg2_end reaches len(audio));
    the window START is never checked, so windows reaching before index 0 are
    not excluded. -/
theorem claim_C4_only_end_bounds_checked (env : SpliceEnv) (num_candidates : ℕ)
    (c : SpliceCand) (hc : c ∈ find_splice_points env num_candidates) :
    pyIntQ ((c.time1 + 1 / 10) * env.sr1) < (env.len1 : ℤ) ∧
    pyIntQ ((c.time2 + 1 / 10) * env.sr2) < (env.len2 : ℤ) := by
  unfold find_splice_points at hc
  have h1 := List.mem_of_mem_take hc
  rw [mem_sortDesc, List.mem_flatMap] at h1
  obtain ⟨t1, ht1, h2⟩ := h1
  rw [List.mem_filterMap] at h2
  obtain ⟨t2, ht2, h3⟩ := h2
  dsimp only at h3
  by_cases hguard : (env.len1 : ℤ) ≤ pyIntQ ((t1 + 1 / 10) * env.sr1) ∨
      (env.len2 : ℤ) ≤ pyIntQ ((t2 + 1 / 10) * env.sr2)
  · rw [if_pos hguard] at h3
    exact absurd h3 (by simp)
  · rw [if_neg hguard] at h3
    push_neg at hguard
    obtain ⟨hg1, hg2⟩ := hguard
    obtain rfl : SpliceCand.mk t1 t2
        (env.similarity (pyIntQ ((t1 - 1 / 10) * env.sr1)) (pyIntQ ((t1 + 1 / 10) * env.sr1))
          (pyIntQ ((t2 - 1 / 10) * env.sr2)) (pyIntQ ((t2 + 1 / 10) * env.sr2))) = c :=
      Option.some.inj h3
    exact ⟨hg1, hg2⟩

/-- Claim C4 counterexample: with two buffers each shorter than the 0.2 s
    comparison window (15 samples at rate 100) and a beat at 0.0 s in each,
    find_splice_points returns a candidate instead of the empty list, and the
    start index of that candidate window is -10, i.e. the window extends
    before the start of the buffer. -/
theorem claim_C4_counterexample :
    find_splice_points spliceEnvCE 5 = [⟨0, 0, 1⟩] ∧
    pyIntQ (((0 : ℚ) - 1 / 10) * spliceEnvCE.sr1) = -10 ∧
    (spliceEnvCE.len1 : ℚ) < 2 / 10 * spliceEnvCE.sr1 ∧
    (spliceEnvCE.len2 : ℚ) < 2 / 10 * spliceEnvCE.sr2 := by
  refine ⟨spliceEnvCE_eval, ?_, ?_, ?_⟩
  · have h1 : ((0 : ℚ) - 1 / 10) * spliceEnvCE.sr1 = ((-10 : ℤ) : ℚ) := by
      norm_num [spliceEnvCE]
    unfold pyIntQ
    rw [h1, if_neg (by norm_num), Int.ceil_intCast]
  · norm_num [spliceEnvCE]
  · norm_num [spliceEnvCE]

/-- Claim C4 witness for the amended bound theorem at the concrete oracle. -/
theorem claim_C4_witness :
    (⟨0, 0, 1⟩ : SpliceCand) ∈ find_splice_points spliceEnvCE 5 ∧
    pyIntQ (((⟨0, 0, 1⟩ : SpliceCand).time1 + 1 / 10) * spliceEnvCE.sr1)
      < (spliceEnvCE.len1 : ℤ) ∧
    pyIntQ (((⟨0, 0, 1⟩ : SpliceCand).time2 + 1 / 10) * spliceEnvCE.sr2)
      < (spliceEnvCE.len2 : ℤ) := by
  have hmem : (⟨0, 0, 1⟩ : SpliceCand) ∈ find_splice_points spliceEnvCE 5 := by
    rw [spliceEnvCE_eval]
    simp
  have h := claim_C4_only_end_bounds_checked spliceEnvCE 5 ⟨0, 0, 1⟩ hmem
  exact ⟨hmem, h.1, h.2⟩

-- ===================== process_audio (lines 159-221) =====================

/-- Success or failure of the external library calls made by one process_audio
    job, in source order: the librosa analysis inside find_splice_points
    (find_ok, with its oracle view splice), the pydub load/append/export of the
    join (concat_ok; the export creates the temporary file), sf.read (read_ok),
    the pyloudnorm metering and numpy work of lines 184-202 (process_ok),
    sf.write (write_ok), and the final measurement of line 208
    (final_measure_ok). -/
structure JobEnv where
  splice : SpliceEnv
  find_ok : Bool
  concat_ok : Bool
  read_ok : Bool
  process_ok : Bool
  write_ok : Bool
  final_measure_ok : Bool

/-- A successful pydub export makes the named file exist (create or
    overwrite); the file system is the list of names present. -/
def fsAdd (name : String) (fs : List String) : List String :=
  if name ∈ fs then fs else name :: fs

/-- The join step of process_audio (lines 162-179).  With a second file and
    interactive splice: find_splice_points may raise, splice_candidates[0]
    raises IndexError on an empty candidate list, then concatenate_at_point
    exports the fixed name temp_concatenated.wav and input_path is rebound to
    it.  Without interactive splice, the pydub concatenation exports the same
    fixed name.  Returns the updated input_path and file system. -/
def join_step (env : JobEnv) (input_path : String) (second_file : Option String)
    (interactive_splice : Bool) (fs : List String) : Except PyErr (String × List String) :=
  match second_file with
  | none => .ok (input_path, fs)
  | some _ =>
    if interactive_splice then
      if env.find_ok then
        match find_splice_points env.splice 5 with
        | [] => .error .exc
        | _ :: _ =>
          if env.concat_ok then .ok ("temp_concatenated.wav", fsAdd "temp_concatenated.wav" fs)
          else .error .exc
      else .error .exc
    else
      if env.concat_ok then .ok ("temp_concatenated.wav", fsAdd "temp_concatenated.wav" fs)
      else .error .exc

/-- AudioProcessor.process_audio (lines 159-221) over the explicit file
    system; only the transient temp file is tracked.  The body is the try
    block; an error value is the exception reaching the caller after the
    except handler of lines 217-221, which only reformats and re-raises and
    removes nothing.  The cleanup of lines 211-213 runs only after every
    earlier line of the try block succeeded. -/
def process_audio (env : JobEnv) (input_path output_path : String)
    (second_file : Option String) (interactive_splice : Bool) (fs : List String) :
    Except PyErr Bool × List String :=
  match join_step env input_path second_file interactive_splice fs with
  | .error e => (.error e, fs)
  | .ok (_, fs1) =>
    if env.read_ok then
      if env.process_ok then
        if env.write_ok then
          if env.final_measure_ok then
            match second_file with
            | some _ =>
              if "temp_concatenated.wav" ∈ fs1
              then (.ok true, fs1.erase "temp_concatenated.wav")
              else (.ok true, fs1)
            | none => (.ok true, fs1)
          else (.error .exc, fs1)
        else (.error .exc, fs1)
      else (.error .exc, fs1)
    else (.error .exc, fs1)

theorem join_step_some_ok (env : JobEnv) (input_path s : String) (interactive_splice : Bool)
    (fs : List String) (pr : String × List String)
    (h : join_step env input_path (some s) interactive_splice fs = .ok pr) :
    pr = ("temp_concatenated.wav", fsAdd "temp_concatenated.wav" fs) := by
  unfold join_step at h
  cases interactive_splice with
  | false =>
    by_cases hc : env.concat_ok
    · simp [hc] at h
      exact h.symm
    · simp [hc] at h
  | true =>
    by_cases hf : env.find_ok
    · cases hcand : find_splice_points env.splice 5 with
      | nil => simp [hf, hcand] at h
      | cons a l =>
        by_cases hc : env.concat_ok
        · simp [hf, hcand, hc] at h
          exact h.symm
        · simp [hf, hcand, hc] at h
    · simp [hf] at h

/-- Claim C6 (amended): a job that joins a pair of sources removes the
    transient temp_concatenated.wav when it completes successfully, but when
    any stage after the join fails the exception propagates past the cleanup
    lines and the transient file is left behind: cleanup is on the success
    path only. -/
theorem claim_C6_cleanup_success_path_only (env : JobEnv)
    (input_path output_path s : String) (interactive_splice : Bool) (fs0 : List String)
    (h0 : "temp_concatenated.wav" ∉ fs0) :
    ((process_audio env input_path output_path (some s) interactive_splice fs0).1 = .ok true →
      "temp_concatenated.wav"
        ∉ (process_audio env input_path output_path (some s) interactive_splice fs0).2) ∧
    (env.concat_ok = true →
      (process_audio env input_path output_path (some s) false fs0).1 ≠ .ok true →
      "temp_concatenated.wav"
        ∈ (process_audio env input_path output_path (some s) false fs0).2) := by
  have hfsadd : fsAdd "temp_concatenated.wav" fs0 = "temp_concatenated.wav" :: fs0 := by
    simp [fsAdd, h0]
  constructor
  · intro hok
    rcases hjs : join_step env input_path (some s) interactive_splice fs0 with e | pr
    · simp [process_audio, hjs] at hok
    · have hpr := join_step_some_ok env input_path s interactive_splice fs0 pr hjs
      rw [hpr] at hjs
      by_cases hr : env.read_ok <;> by_cases hp : env.process_ok <;>
        by_cases hw : env.write_ok <;> by_cases hm : env.final_measure_ok <;>
        simp [process_audio, hjs, hfsadd, hr, hp, hw, hm, List.erase_cons_head, h0] at hok ⊢
  · intro hc hfail
    have hjs : join_step env input_path (some s) false fs0
        = .ok ("temp_concatenated.wav", fsAdd "temp_concatenated.wav" fs0) := by
      simp [join_step, hc]
    by_cases hr : env.read_ok <;> by_cases hp : env.process_ok <;>
      by_cases hw : env.write_ok <;> by_cases hm : env.final_measure_ok <;>
      simp [process_audio, hjs, hfsadd, hr, hp, hw, hm, List.erase_cons_head, h0] at hfail ⊢

/-- Concrete failing job: the join succeeds (pydub exports the temp file) and
    sf.read then raises. -/
def jobEnvCE : JobEnv := ⟨spliceEnvCE, true, true, false, true, true, true⟩

/-- Concrete succeeding job: every stage succeeds. -/
def jobEnvOK : JobEnv := ⟨spliceEnvCE, true, true, true, true, true, true⟩

/-- Claim C6 counterexample: a job that joined two sources and then failed at
    the read stage propagates the exception and leaves temp_concatenated.wav
    on disk, so cleanup is not guaranteed on the failure path. -/
theorem claim_C6_counterexample :
    process_audio jobEnvCE "a.wav" "out.wav" (some "b.wav") false []
      = (.error .exc, ["temp_concatenated.wav"]) := rfl

/-- Claim C6 witness: the success side removes the file and the failure side
    leaves it, at two concrete jobs started on an empty file system. -/
theorem claim_C6_witness :
    "temp_concatenated.wav" ∉ ([] : List String) ∧
    "temp_concatenated.wav"
      ∉ (process_audio jobEnvOK "a.wav" "out.wav" (some "b.wav") false []).2 ∧
    "temp_concatenated.wav"
      ∈ (process_audio jobEnvCE "a.wav" "out.wav" (some "b.wav") false []).2 := by
  have hOK := claim_C6_cleanup_success_path_only jobEnvOK "a.wav" "out.wav" "b.wav" false []
    (by simp)
  have hCE := claim_C6_cleanup_success_path_only jobEnvCE "a.wav" "out.wav" "b.wav" false []
    (by simp)
  refine ⟨by simp, hOK.1 rfl, hCE.2 rfl ?_⟩
  intro hx
  rw [show (process_audio jobEnvCE "a.wav" "out.wav" (some "b.wav") false []).1
      = Except.error PyErr.exc from rfl] at hx
  exact Except.noConfusion hx

/-- Claim C8 (amended): whenever a job with a second source completes its join
    step, the transient name it used is the fixed shared temp_concatenated.wav;
    any two such jobs, whatever their inputs, use exactly the same name. -/
theorem claim_C8_fixed_shared_temp_name (env env2 : JobEnv) (i1 i2 s1 s2 : String)
    (inter1 inter2 : Bool) (fs1 fs2 : List String) (pr1 pr2 : String × List String)
    (h1 : join_step env i1 (some s1) inter1 fs1 = .ok pr1)
    (h2 : join_step env2 i2 (some s2) inter2 fs2 = .ok pr2) :
    pr1.1 = "temp_concatenated.wav" ∧ pr2.1 = "temp_concatenated.wav" ∧ pr1.1 = pr2.1 := by
  have e1 := join_step_some_ok env i1 s1 inter1 fs1 pr1 h1
  have e2 := join_step_some_ok env2 i2 s2 inter2 fs2 pr2 h2
  rw [e1, e2]
  exact ⟨rfl, rfl, rfl⟩

/-- Claim C8 counterexample: two distinct jobs, on entirely different input
    pairs, both create the same fixed transient name during joining, refuting
    job-unique naming. -/
theorem claim_C8_counterexample :
    ("songA.wav" : String) ≠ "songB.wav" ∧
    join_step jobEnvOK "songA.wav" (some "songA_pt2.wav") false []
      = .ok ("temp_concatenated.wav", ["temp_concatenated.wav"]) ∧
    join_step jobEnvOK "songB.wav" (some "songB_pt2.wav") false []
      = .ok ("temp_concatenated.wav", ["temp_concatenated.wav"]) := by
  refine ⟨by decide, rfl, rfl⟩

/-- Claim C8 witness: the amended theorem applied to two concrete jobs. -/
theorem claim_C8_witness :
    (join_step jobEnvOK "songA.wav" (some "songA_pt2.wav") false []).toOption.map Prod.fst
      = some "temp_concatenated.wav" ∧
    (join_step jobEnvOK "songB.wav" (some "songB_pt2.wav") false []).toOption.map Prod.fst
      = some "temp_concatenated.wav" := by
  have h := claim_C8_fixed_shared_temp_name jobEnvOK jobEnvOK "songA.wav" "songB.wav"
    "songA_pt2.wav" "songB_pt2.wav" false false [] []
    ("temp_concatenated.wav", ["temp_concatenated.wav"])
    ("temp_concatenated.wav", ["temp_concatenated.wav"]) rfl rfl
  constructor
  · rw [show join_step jobEnvOK "songA.wav" (some "songA_pt2.wav") false []
        = Except.ok (("temp_concatenated.wav", ["temp_concatenated.wav"])
            : String × List String) from rfl]
    simp [Except.toOption, h.1]
  · rw [show join_step jobEnvOK "songB.wav" (some "songB_pt2.wav") false []
        = Except.ok (("temp_concatenated.wav", ["temp_concatenated.wav"])
            : String × List String) from rfl]
    simp [Except.toOption, h.2.1]

-- ===================== claim C7: configuration validation =====================

/-- Claim C7 counterexample: a configuration with a non-positive silence
    duration and a non-positive tolerance is accepted and stored verbatim at
    configuration time, not rejected with any error. -/
theorem claim_C7_counterexample :
    AudioProcessor.init (-14) (-1) (-1/10) = .ok ⟨-14, -1, -1/10⟩ := rfl

/-- Claim C7 (amended): the constructor performs no validation at all: every
    value triple, non-positive ones included, is accepted and stored
    unchanged, so no InvalidConfig rejection exists at configuration time; an
    invalid negative silence duration first fails downstream, when add_silence
    asks numpy for a negative number of zero samples. -/
theorem claim_C7_no_config_validation :
    (∀ target_lufs silence_duration tolerance : ℚ,
      AudioProcessor.init target_lufs silence_duration tolerance
        = .ok ⟨target_lufs, silence_duration, tolerance⟩) ∧
    (∀ (a : NpArray ℚ) (sample_rate : ℚ), 1 ≤ sample_rate →
      add_silence (-1) a sample_rate = none) := by
  refine ⟨fun t s tol => rfl, fun a rate hrate => ?_⟩
  have hle : (-1 : ℚ) * rate ≤ -1 := by linarith
  have hceil : (⌈(-1 : ℚ) * rate⌉ : ℤ) ≤ -1 := by
    rw [Int.ceil_le]
    push_cast
    linarith
  have hneg : pyIntQ ((-1 : ℚ) * rate) < 0 := by
    unfold pyIntQ
    rw [if_neg (by linarith)]
    omega
  simp only [add_silence]
  rw [if_pos hneg]

/-- Claim C7 witness: concrete non-positive configuration accepted, and the
    downstream padding failure at a concrete rate. -/
theorem claim_C7_witness :
    AudioProcessor.init (-14) (-2) (1/10) = .ok ⟨-14, -2, 1/10⟩ ∧
    (1 : ℚ) ≤ 44100 ∧
    add_silence (-1) (NpArray.mono ([] : List ℚ)) 44100 = none := by
  exact ⟨claim_C7_no_config_validation.1 (-14) (-2) (1/10), by norm_num,
    claim_C7_no_config_validation.2 (NpArray.mono ([] : List ℚ)) 44100 (by norm_num)⟩

-- ===================== main.py filename grouping (lines 51-72) =====================

/-- Characters of the literal substring tested at line 67 of src/main.py,
    namely an underscore, p, t, 2 and a dot. -/
def pt2dot : List Char := ['_', 'p', 't', '2', '.']

/-- Python substring membership: pat in s. -/
def containsSub (pat : List Char) : List Char → Bool
  | [] => pat.isEmpty
  | c :: rest => pat.isPrefixOf (c :: rest) || containsSub pat rest

/-- The condition matched by the regex of get_base_filename, which is also
    the wording of the spec boundary contract: the filename carries _pt2
    immediately before its final extension, that is, it ends in _pt2 followed
    by a dot and a nonempty dot-free extension.  The lookahead of the regex is
    anchored at the end of the string, so this is exactly its match set. -/
def pt2BeforeExt (s : List Char) : Bool :=
  let r := s.reverse
  let revExt := r.takeWhile (fun c => c != '.')
  (revExt != []) && ['.', '2', 't', 'p', '_'].isPrefixOf (r.drop revExt.length)

/-- get_base_filename (src/main.py lines 54-56):
    re.sub of the pattern _pt2 followed by a lookahead for a final dot and a
    nonempty dot-free extension, replaced by the empty string.  Because the
    lookahead is anchored at the end of the string the regex has at most one
    match, so the substitution deletes that one _pt2 when the filename ends
    with _pt2 dot ext, and returns every other filename unchanged. -/
def get_base_filename (s : List Char) : List Char :=
  let r := s.reverse
  let revExt := r.takeWhile (fun c => c != '.')
  let rest := r.drop revExt.length
  if (revExt != []) && ['.', '2', 't', 'p', '_'].isPrefixOf rest
  then (rest.drop 5).reverse ++ '.' :: revExt.reverse
  else s

/-- allowed_file (src/main.py lines 51-52): a dot is present and the
    lowercased text after the last dot is wav or mp3. -/
def allowed_file (s : List Char) : Bool :=
  s.contains '.' &&
    (((s.reverse.takeWhile (fun c => c != '.')).reverse.map Char.toLower == ['w', 'a', 'v'])
      || ((s.reverse.takeWhile (fun c => c != '.')).reverse.map Char.toLower == ['m', 'p', '3']))

/-- One group built by find_matching_files: the dict with a part1 slot and a
    part2 slot. -/
structure FileGroup where
  part1 : Option (List Char)
  part2 : Option (List Char)
deriving DecidableEq, Repr

/-- find_matching_files (src/main.py lines 58-72): a fold over the uploaded
    filenames building the insertion-ordered dict of groups keyed by base
    filename; a filename containing the substring _pt2. anywhere is stored in
    the part2 slot of its group, every other filename in part1. -/
def find_matching_files (uploaded_files : List (List Char)) :
    List (List Char × FileGroup) :=
  uploaded_files.foldl (fun file_groups filename =>
    let base_filename := get_base_filename filename
    let file_groups2 :=
      if file_groups.any (fun g => g.1 == base_filename) then file_groups
      else file_groups ++ [(base_filename, ⟨none, none⟩)]
    file_groups2.map (fun g =>
      if g.1 == base_filename then
        if containsSub pt2dot filename
        then (g.1, ⟨g.2.part1, some filename⟩)
        else (g.1, ⟨some filename, g.2.part2⟩)
      else g)) []

theorem containsSub_nil_pat : ∀ (s : List Char), containsSub [] s = true := by
  intro s
  cases s with
  | nil => rfl
  | cons c rest => simp [containsSub, List.isPrefixOf]

theorem isPrefixOf_append_self : ∀ (p suf : List Char), p.isPrefixOf (p ++ suf) = true := by
  intro p
  induction p with
  | nil => intro suf; simp [List.isPrefixOf]
  | cons c cs ih => intro suf; simp [List.isPrefixOf, ih]

theorem containsSub_of_leading (pat s : List Char) (h : pat.isPrefixOf s = true) :
    containsSub pat s = true := by
  cases s with
  | nil =>
    cases pat with
    | nil => rfl
    | cons c cs => simp [List.isPrefixOf] at h
  | cons c rest => simp [containsSub, h]

theorem containsSub_append_pat (pat suf : List Char) :
    ∀ (pre : List Char), containsSub pat (pre ++ (pat ++ suf)) = true := by
  intro pre
  induction pre with
  | nil =>
    rw [List.nil_append]
    exact containsSub_of_leading pat (pat ++ suf) (isPrefixOf_append_self pat suf)
  | cons a rest ih =>
    rw [List.cons_append]
    simp [containsSub, ih]

theorem takeWhile_append_stop (p : Char → Bool) (x : Char) (hx : p x = false) :
    ∀ (a b : List Char), (∀ c ∈ a, p c = true) → (a ++ x :: b).takeWhile p = a := by
  intro a
  induction a with
  | nil => intro b _; simp [List.takeWhile_cons, hx]
  | cons c cs ih =>
    intro b ha
    have hc : p c = true := ha c (by simp)
    simp only [List.cons_append, List.takeWhile_cons, hc, if_true]
    rw [ih b (fun d hd => ha d (by simp [hd]))]

theorem pt2_reverse_shape (pre ext : List Char) (hdot : '.' ∉ ext) :
    (pre ++ pt2dot ++ ext).reverse
      = ext.reverse ++ '.' :: '2' :: 't' :: 'p' :: '_' :: pre.reverse ∧
    (pre ++ pt2dot ++ ext).reverse.takeWhile (fun c => c != '.') = ext.reverse := by
  have hrev : (pre ++ pt2dot ++ ext).reverse
      = ext.reverse ++ '.' :: '2' :: 't' :: 'p' :: '_' :: pre.reverse := by
    rw [List.reverse_append, List.reverse_append]
    rfl
  refine ⟨hrev, ?_⟩
  rw [hrev]
  exact takeWhile_append_stop (fun c => c != '.') '.' (by decide) ext.reverse _
    (fun c hc => by
      have hmem : c ∈ ext := List.mem_reverse.mp hc
      have hne : c ≠ '.' := fun he => hdot (he ▸ hmem)
      simp [hne])

/-- Claim C9 (amended): a filename with _pt2 immediately before its nonempty
    dot-free final extension is classified as a second-part file by
    find_matching_files and grouped under the base filename with that _pt2
    removed; the classification test itself, however, is substring containment
    of _pt2. anywhere in the name, which is strictly weaker than the claimed
    immediately-before-the-extension condition. -/
theorem claim_C9_suffix_convention (pre ext : List Char) (hne : ext ≠ [])
    (hdot : '.' ∉ ext) :
    containsSub pt2dot (pre ++ pt2dot ++ ext) = true ∧
    pt2BeforeExt (pre ++ pt2dot ++ ext) = true ∧
    get_base_filename (pre ++ pt2dot ++ ext) = pre ++ '.' :: ext ∧
    find_matching_files [pre ++ pt2dot ++ ext]
      = [(pre ++ '.' :: ext, ⟨none, some (pre ++ pt2dot ++ ext)⟩)] := by
  obtain ⟨hrev, htake⟩ := pt2_reverse_shape pre ext hdot
  have hdrop : (pre ++ pt2dot ++ ext).reverse.drop ext.reverse.length
      = '.' :: '2' :: 't' :: 'p' :: '_' :: pre.reverse := by
    rw [hrev, List.drop_left]
  have hextne : (ext.reverse != ([] : List Char)) = true := by
    simp [hne]
  have hpref : (['.', '2', 't', 'p', '_'] : List Char).isPrefixOf
      ('.' :: '2' :: 't' :: 'p' :: '_' :: pre.reverse) = true :=
    isPrefixOf_append_self ['.', '2', 't', 'p', '_'] pre.reverse
  have hdrop5 : ('.' :: '2' :: 't' :: 'p' :: '_' :: pre.reverse).drop 5 = pre.reverse := rfl
  have hcontains : containsSub pt2dot (pre ++ pt2dot ++ ext) = true := by
    have h := containsSub_append_pat pt2dot ext pre
    rwa [← List.append_assoc] at h
  have hbase : get_base_filename (pre ++ pt2dot ++ ext) = pre ++ '.' :: ext := by
    simp only [get_base_filename]
    rw [htake, hdrop, hextne, hpref, hdrop5]
    simp
  have hbefore : pt2BeforeExt (pre ++ pt2dot ++ ext) = true := by
    simp only [pt2BeforeExt]
    rw [htake, hdrop, hextne, hpref]
    rfl
  refine ⟨hcontains, hbefore, hbase, ?_⟩
  unfold find_matching_files
  simp only [List.foldl_cons, List.foldl_nil, hbase, List.any_nil, if_false,
    List.nil_append, List.map_cons, List.map_nil, beq_self_eq_true, if_true, hcontains]
  simp

/-- Claim C9 counterexample: the allowed upload a_pt2.b.wav contains the
    substring _pt2. and is therefore classified as a second-part file, yet
    _pt2 is not immediately before its extension, so the regex strips nothing
    and the file is grouped under its own unmodified name with no first part:
    the claimed if-and-only-if fails in the only-if direction. -/
theorem claim_C9_counterexample :
    allowed_file "a_pt2.b.wav".toList = true ∧
    containsSub pt2dot "a_pt2.b.wav".toList = true ∧
    pt2BeforeExt "a_pt2.b.wav".toList = false ∧
    get_base_filename "a_pt2.b.wav".toList = "a_pt2.b.wav".toList ∧
    find_matching_files ["a_pt2.b.wav".toList]
      = [("a_pt2.b.wav".toList, ⟨none, some "a_pt2.b.wav".toList⟩)] := by
  decide

/-- Claim C9 witness: the compliant filename song_pt2.wav, built as
    song ++ _pt2. ++ wav. -/
theorem claim_C9_witness :
    ("wav".toList ≠ ([] : List Char)) ∧ ('.' ∉ "wav".toList) ∧
    (containsSub pt2dot ("song".toList ++ pt2dot ++ "wav".toList) = true ∧
      pt2BeforeExt ("song".toList ++ pt2dot ++ "wav".toList) = true ∧
      get_base_filename ("song".toList ++ pt2dot ++ "wav".toList)
        = "song".toList ++ '.' :: "wav".toList ∧
      find_matching_files [("song".toList ++ pt2dot ++ "wav".toList)]
        = [("song".toList ++ '.' :: "wav".toList,
            ⟨none, some ("song".toList ++ pt2dot ++ "wav".toList)⟩)]) :=
  ⟨by decide, by decide,
    claim_C9_suffix_convention ("song".toList) ("wav".toList) (by decide) (by decide)⟩
